import Mathlib

/-!
Verification of the Referral Commission & Tiered Discount Ledger of the
botanic-bay backend (`src/backend/app`), as a shallow embedding in Lean 4.

Monetary values (`Decimal(10,2)` columns and Python `Decimal` arithmetic) are
exact multiples of 0.01, so they are modelled as integers counting cents
(`ℤ`); commission percentages (`Decimal("0.08")` etc.) are exact multiples of
0.0001 and are modelled as integers counting permyriad (1/10000) units.
Python `Decimal.quantize(Decimal("0.01"))` with the default
`ROUND_HALF_EVEN` context then becomes `roundHalfEvenDiv`, a round-half-to-
even integer division.  Timestamps are modelled as abstract integers (units
irrelevant as long as `timedelta(days=d)` maps to subtraction of `d` in the
same units; we use days).  UUID keys are modelled as naturals.  Database
tables are lists of rows and the SQLAlchemy queries are translated to
`List.find?` / `List.filter` / sums over them.

The repository snapshot lacks `app/models/base.py` (the declarative `Base`
that carries the `created_at` timestamp column used by the queries); the
`created_at` fields below are modelled from the spec (§3), which lists
`created_at` on the ledger-entry and payout-request tables.
-/

namespace BotanicBay

/-- Round the fraction `a / b` (with `b > 0`) to the nearest integer with
ties going to the even integer: Python `decimal`'s default `ROUND_HALF_EVEN`
("banker's rounding") applied to an exact quotient. -/
def roundHalfEvenDiv (a b : ℤ) : ℤ :=
  let n := Int.fdiv a b
  let r := a - n * b
  if 2 * r < b then n
  else if b < 2 * r then n + 1
  else if n % 2 = 0 then n else n + 1

/-- `(Decimal(total) * percent).quantize(Decimal("0.01"))` of
`ReferralService.apply_referral_bonus`, with `total` in cents and `percent`
in permyriad units: the product is `total * percent / 10000` cents, rounded
to a whole cent with banker's rounding. -/
def bonusAmountCents (totalCents ratePermyriad : ℤ) : ℤ :=
  roundHalfEvenDiv (totalCents * ratePermyriad) 10000

/-- `app.models.order_status.OrderStatus`. -/
inductive OrderStatus
  | pending
  | paid
  | processing
  | shipped
  | delivered
  | cancelled
deriving DecidableEq, Repr

/-- `app.enums.referral.ReferralPayoutStatus`. -/
inductive ReferralPayoutStatus
  | pending
  | approved
  | rejected
deriving DecidableEq, Repr

/-- `app.schemas.user.UserDiscountLevel` (NONE/BRONZE/SILVER/GOLD). -/
inductive UserDiscountLevel
  | none
  | bronze
  | silver
  | gold
deriving DecidableEq, Repr

/-- Exceptions that the modelled service code can raise. -/
inductive PyError
  | httpException417
  | httpException400
  | attributeError
deriving DecidableEq, Repr

/-- `app.models.referral.Referral`: one referral node per user, with an
optional parent node (`referrer_id` is a self-reference to `referrals.id`). -/
structure Referral where
  id : Nat
  user_id : Nat
  referrer_id : Option Nat
deriving DecidableEq, Repr

/-- The fields of `app.models.user.User` used by the referral ledger
(`bonus_balance` in cents). -/
structure User where
  id : Nat
  bonus_balance : ℤ
  payment_details : Option String
deriving DecidableEq, Repr

/-- `app.models.referral.ReferralBonus` (one commission-ledger entry,
`bonus_amount` in cents).  `created_at` is modelled from the spec: the
column comes from the timestamp mixin in `app/models/base.py`, which is
absent from the snapshot. -/
structure ReferralBonus where
  referrer_id : Nat
  referral_id : Nat
  order_id : Option Nat
  bonus_amount : ℤ
  created_at : Int
  reverted_at : Option Int
deriving DecidableEq, Repr

/-- `app.models.referral.ReferralPayoutRequest` (`amount` in cents).  The
`bank_code` / `account_number` columns are collapsed into one
`payment_details` string, which is what `ReferralService.create_payout_request`
actually passes. -/
structure ReferralPayoutRequest where
  id : Nat
  referrer_id : Nat
  amount : ℤ
  status : ReferralPayoutStatus
  payment_details : String
deriving DecidableEq, Repr

/-- The fields of `app.models.order.Order` used by the ledger
(`total` in cents). -/
structure Order where
  id : Nat
  user_id : Nat
  status : OrderStatus
  total : ℤ
  created_at : Int
deriving DecidableEq, Repr

/-- The relational store backing the referral subsystem: the four tables of
spec §3 plus the `users` table that carries the running `bonus_balance`. -/
structure DB where
  referrals : List Referral
  users : List User
  referral_bonuses : List ReferralBonus
  payout_requests : List ReferralPayoutRequest
deriving DecidableEq, Repr

/-- `Settings.REFERRAL_MAX_LEVEL`. -/
def REFERRAL_MAX_LEVEL : Nat := 5

/-- `Settings.REFERRAL_LEVELS.get(level, Decimal("0"))`: the commission-rate
schedule `{1: 0.08, 2: 0.05, 3: 0.04, 4: 0.02, 5: 0.01}` in permyriad units
(`Decimal("0.08") = 800/10000`), with 0 for any level outside the dict. -/
def REFERRAL_LEVELS (level : Nat) : ℤ :=
  if level = 1 then 800
  else if level = 2 then 500
  else if level = 3 then 400
  else if level = 4 then 200
  else if level = 5 then 100
  else 0

/-- `ReferralCRUD.get(user_id=uid)`. -/
def getReferralByUserId (db : DB) (uid : Nat) : Option Referral :=
  db.referrals.find? (fun r => r.user_id == uid)

/-- `ReferralCRUD.get(referral_id=rid)`. -/
def getReferralById (db : DB) (rid : Nat) : Option Referral :=
  db.referrals.find? (fun r => r.id == rid)

/-- `session.get(User, uid)`. -/
def getUser (db : DB) (uid : Nat) : Option User :=
  db.users.find? (fun u => u.id == uid)

/-- The running bonus balance of user `uid` (0 if the user row is absent). -/
def userBalance (db : DB) (uid : Nat) : ℤ :=
  match getUser db uid with
  | some u => u.bonus_balance
  | Option.none => 0

/-- Overwrite the `bonus_balance` of the user row with id `uid`
(the ORM mutation `user.bonus_balance = b`). -/
def setUserBalance (db : DB) (uid : Nat) (b : ℤ) : DB :=
  { db with users := db.users.map (fun u =>
      if u.id == uid then { u with bonus_balance := b } else u) }

/-- Insert one ledger row (`ReferralBonusCRUD.create`). -/
def addBonus (db : DB) (b : ReferralBonus) : DB :=
  { db with referral_bonuses := db.referral_bonuses ++ [b] }

/-- Insert one payout-request row. -/
def addRequest (db : DB) (p : ReferralPayoutRequest) : DB :=
  { db with payout_requests := db.payout_requests ++ [p] }

/-- The ledger entry created at `level` of the cascade for ancestor `parent`:
`ReferralBonus(referrer_id=parent.id, referral_id=referral.id,
order_id=order.id, bonus_amount=(order.total * percent).quantize("0.01"))`. -/
def mkEntry (order : Order) (referral : Referral) (now : Int) (level : Nat)
    (parent : Referral) : ReferralBonus :=
  ⟨parent.id, referral.id, some order.id,
   bonusAmountCents order.total (REFERRAL_LEVELS level), now, Option.none⟩

/-- One iteration of the cascade loop body of
`ReferralService.apply_referral_bonus` at `level` for ancestor `parent`:
if the level's percent is positive, create the ledger entry and increment
the ancestor user's running balance (skipping the increment when the user
row is missing, as the code does). -/
def applyBonusStep (order : Order) (referral : Referral) (now : Int)
    (db : DB) (parent : Referral) (level : Nat) : DB :=
  let percent := REFERRAL_LEVELS level
  if 0 < percent then
    let bonus_amount := bonusAmountCents order.total percent
    let db1 := addBonus db (mkEntry order referral now level parent)
    match getUser db1 parent.user_id with
    | some u => setUserBalance db1 u.id (u.bonus_balance + bonus_amount)
    | Option.none => db1
  else db

/-- The `while current_referrer_id and level <= REFERRAL_MAX_LEVEL` walk of
`apply_referral_bonus`: look up the parent node, apply the level's bonus,
then continue from the parent's own referrer at `level + 1`.  The `fuel`
argument only makes the recursion structural: the walk is entered with
`fuel = REFERRAL_MAX_LEVEL` at `level = 1`, so fuel runs out exactly when
`level` exceeds `REFERRAL_MAX_LEVEL` and the fuel-exhaustion branch is
unreachable — the loop is bounded by the `level` check, as in the source. -/
def referralBonusWalk (order : Order) (referral : Referral) (now : Int) :
    Nat → DB → Option Nat → Nat → DB
  | _, db, Option.none, _ => db
  | 0, db, some _, _ => db
  | fuel + 1, db, some rid, level =>
    if level ≤ REFERRAL_MAX_LEVEL then
      match getReferralById db rid with
      | Option.none => db
      | some parent =>
        referralBonusWalk order referral now fuel
          (applyBonusStep order referral now db parent level)
          parent.referrer_id (level + 1)
    else db

/-- `ReferralService.apply_referral_bonus(order)`: no-op unless the order is
PAID; no-op if the payer has no referral node or no referrer; otherwise run
the ancestor walk from the payer's referrer at level 1.  `now` is the clock
value stamped on created rows. -/
def apply_referral_bonus (order : Order) (now : Int) (db : DB) : DB :=
  if order.status ≠ OrderStatus.paid then db
  else
    match getReferralByUserId db order.user_id with
    | Option.none => db
    | some referral =>
      match referral.referrer_id with
      | Option.none => db
      | some _ =>
        referralBonusWalk order referral now REFERRAL_MAX_LEVEL db
          referral.referrer_id 1

/-- The list of ledger entries the walk creates for the ancestor chain `as`
starting at `level` (one entry per ancestor whose level has a positive rate). -/
def cascadeEntries (order : Order) (referral : Referral) (now : Int) :
    Nat → List Referral → List ReferralBonus
  | _, [] => []
  | level, parent :: rest =>
    if 0 < REFERRAL_LEVELS level then
      mkEntry order referral now level parent
        :: cascadeEntries order referral now (level + 1) rest
    else cascadeEntries order referral now (level + 1) rest

/-- Total amount the walk credits to user `uid` while processing the ancestor
chain `as` starting at `level`. -/
def chainCredit (order : Order) : Nat → List Referral → Nat → ℤ
  | _, [], _ => 0
  | level, parent :: rest, uid =>
    (if 0 < REFERRAL_LEVELS level ∧ parent.user_id = uid then
       bonusAmountCents order.total (REFERRAL_LEVELS level)
     else 0)
      + chainCredit order (level + 1) rest uid

/-- `AncestorChain db cur as`: following parent pointers from node id `cur`
visits exactly the nodes `as` (in order) and ends at a root (`referrer_id`
of the last node is `None`). -/
inductive AncestorChain (db : DB) : Option Nat → List Referral → Prop
  | nil : AncestorChain db Option.none []
  | cons {rid : Nat} {r : Referral} {rest : List Referral} :
      getReferralById db rid = some r →
      AncestorChain db r.referrer_id rest →
      AncestorChain db (some rid) (r :: rest)

/-- `ReferralBonusCRUD.get_available_balance(referrer_id, min_age_days=30)`:
the sum of `bonus_amount` over this referrer's ledger entries with
`created_at <= utcnow() - timedelta(days=min_age_days)` and
`reverted_at IS NULL`, minus the sum of `amount` over this referrer's
payout requests with `status == PENDING`. -/
def get_available_balance (db : DB) (referrer_id : Nat) (now min_age_days : Int) : ℤ :=
  let cutoff := now - min_age_days
  let total_bonuses :=
    ((db.referral_bonuses.filter (fun b =>
        b.referrer_id == referrer_id && decide (b.created_at ≤ cutoff)
          && b.reverted_at.isNone)).map (fun b => b.bonus_amount)).sum
  let total_requested :=
    ((db.payout_requests.filter (fun p =>
        p.referrer_id == referrer_id
          && decide (p.status = ReferralPayoutStatus.pending))).map
      (fun p => p.amount)).sum
  total_bonuses - total_requested

/-- `ReferralService.create_payout_request(user_id, data)`.  Looks up (or
lazily creates, with fresh node id `newNodeId`) the user's referral node,
rejects with HTTP 417 when `user.bonus_balance < amount`, rejects with HTTP
400 when the user has no `payment_details`, and otherwise inserts a PENDING
payout request (fresh row id `reqId`, carrying the id the service passes for
the requester and the user's stored payment details) and deducts `amount`
from the user's running `bonus_balance`.  A missing user row would surface
as an `AttributeError` in the source (`user.user` unset).  Returns the
database after the call and `some e` when the call raises `e`. -/
def create_payout_request (db : DB) (user_id : Nat) (amount : ℤ)
    (newNodeId reqId : Nat) : DB × Option PyError :=
  let db0 :=
    match getReferralByUserId db user_id with
    | some _ => db
    | Option.none => { db with referrals := db.referrals ++ [⟨newNodeId, user_id, Option.none⟩] }
  match getUser db0 user_id with
  | Option.none => (db0, some PyError.attributeError)
  | some u =>
    if u.bonus_balance < amount then (db0, some PyError.httpException417)
    else
      match u.payment_details with
      | Option.none => (db0, some PyError.httpException400)
      | some pd =>
        let db1 := addRequest db0 ⟨reqId, user_id, amount, ReferralPayoutStatus.pending, pd⟩
        (setUserBalance db1 u.id (u.bonus_balance - amount), Option.none)

/-- `ReferralPayoutRequestCRUD.get_by_id`. -/
def get_by_id (db : DB) (request_id : Nat) : Option ReferralPayoutRequest :=
  db.payout_requests.find? (fun p => p.id == request_id)

/-- `ReferralPayoutRequestCRUD.update_status`: set the row's status to
`new_status` unconditionally (the UPDATE has no condition on the current
status), then re-read the row. -/
def update_status (db : DB) (request_id : Nat)
    (new_status : ReferralPayoutStatus) : DB × Option ReferralPayoutRequest :=
  let db1 :=
    { db with payout_requests := db.payout_requests.map (fun p =>
        if p.id == request_id then { p with status := new_status } else p) }
  (db1, get_by_id db1 request_id)

/-- `ReferralService.reject_payout_request(request_id)`: a bare
`update_status(request_id, REJECTED)` — no status check, no balance
restoration. -/
def reject_payout_request (db : DB) (request_id : Nat) :
    DB × Option ReferralPayoutRequest :=
  update_status db request_id ReferralPayoutStatus.rejected

/-- `ReferralService.approve_payout_request(request_id)`: re-check
`get_available_balance(request.referrer.id)` (default 30-day maturity)
against the requested amount; on insufficient balance raise HTTP 417 leaving
the row untouched, otherwise `update_status(request_id, APPROVED)`.  Missing
rows surface as `AttributeError` (`request.referrer` on `None`). -/
def approve_payout_request (db : DB) (request_id : Nat) (now : Int) :
    DB × Option PyError :=
  match get_by_id db request_id with
  | Option.none => (db, some PyError.attributeError)
  | some req =>
    match getReferralById db req.referrer_id with
    | Option.none => (db, some PyError.attributeError)
    | some refNode =>
      let referrer_balance := get_available_balance db refNode.id now 30
      if referrer_balance < req.amount then (db, some PyError.httpException417)
      else ((update_status db request_id ReferralPayoutStatus.approved).1, Option.none)

/-- `ReferralService.save_referral(referrer_user_id, referral_user_id)`: if
the invited user has no referral record yet, create one (fresh node id
`newNodeId`) pointing at the referrer's node; then — unconditionally, also
on that success path — raise HTTP 417 "The referral record for the user
already exists".  When the record is missing and the referrer has no node,
`referrer.id` dereferences `None` (`AttributeError`). -/
def save_referral (db : DB) (referrer_user_id referral_user_id newNodeId : Nat) :
    DB × Option PyError :=
  match getReferralByUserId db referral_user_id with
  | some _ => (db, some PyError.httpException417)
  | Option.none =>
    match getReferralByUserId db referrer_user_id with
    | Option.none => (db, some PyError.attributeError)
    | some referrer =>
      ({ db with referrals := db.referrals ++ [⟨newNodeId, referral_user_id, some referrer.id⟩] },
       some PyError.httpException417)

/-!
### Transaction model for the cascade

`apply_referral_bonus` wraps the walk in `session.begin_nested()`, but
`ReferralBonusCRUD.create` calls `session.commit()` after every single
insert.  A `Session.commit()` issued inside the nested block commits the
enclosing transaction (releasing the savepoint), so each iteration's ledger
insert — together with whatever else was staged in the session at that
point, such as the previous iteration's balance increment — becomes durable
immediately.  We model the session as a pair of a durable database and a
pending view: staging mutates `pending`, `commit` copies `pending` into
`durable`, and an exception makes the call return with only `durable`
(everything staged but not yet committed is rolled back).
-/

/-- An SQLAlchemy session: the durable (committed) database plus the
session's pending view of it. -/
structure Session where
  durable : DB
  pending : DB
deriving DecidableEq, Repr

/-- `session.commit()`. -/
def commitS (s : Session) : Session := ⟨s.pending, s.pending⟩

/-- The loop body of the walk in the session model, with fault injection:
when `failCreate` is true the INSERT issued by `ReferralBonusCRUD.create`
fails, raising before anything of this iteration (or anything merely staged
by earlier iterations) is committed. -/
def applyBonusStepS (order : Order) (referral : Referral) (now : Int)
    (failCreate : Bool) (s : Session) (parent : Referral) (level : Nat) :
    Except DB Session :=
  let percent := REFERRAL_LEVELS level
  if 0 < percent then
    if failCreate then Except.error s.durable
    else
      let s1 := commitS ⟨s.durable, addBonus s.pending (mkEntry order referral now level parent)⟩
      match getUser s1.pending parent.user_id with
      | some u =>
        Except.ok ⟨s1.durable,
          setUserBalance s1.pending u.id
            (u.bonus_balance + bonusAmountCents order.total percent)⟩
      | Option.none => Except.ok s1
  else Except.ok s

/-- The ancestor walk in the session model; `failLevel = some l` makes the
ledger INSERT at level `l` fail.  On an exception the durable database at
that moment escapes as the `Except.error` value. -/
def referralBonusWalkS (order : Order) (referral : Referral) (now : Int)
    (failLevel : Option Nat) : Nat → Session → Option Nat → Nat → Except DB Session
  | _, s, Option.none, _ => Except.ok s
  | 0, s, some _, _ => Except.ok s
  | fuel + 1, s, some rid, level =>
    if level ≤ REFERRAL_MAX_LEVEL then
      match getReferralById s.pending rid with
      | Option.none => Except.ok s
      | some parent =>
        match applyBonusStepS order referral now (failLevel == some level) s parent level with
        | Except.error d => Except.error d
        | Except.ok s1 =>
          referralBonusWalkS order referral now failLevel fuel s1
            parent.referrer_id (level + 1)
    else Except.ok s

/-- `apply_referral_bonus` in the session model: returns the durable
database after the call, whether the call returned normally (final
`session.commit()`) or raised out of the walk. -/
def apply_referral_bonus_durable (order : Order) (now : Int)
    (failLevel : Option Nat) (db : DB) : DB :=
  if order.status ≠ OrderStatus.paid then db
  else
    match getReferralByUserId db order.user_id with
    | Option.none => db
    | some referral =>
      match referral.referrer_id with
      | Option.none => db
      | some _ =>
        match referralBonusWalkS order referral now failLevel REFERRAL_MAX_LEVEL
            ⟨db, db⟩ referral.referrer_id 1 with
        | Except.error d => d
        | Except.ok s => (commitS s).durable

/-!
### Discount tier engine (`DiscountService`, `UserDiscountCRUD`, `OrderCRUD`)
-/

/-- `app.models.user.UserDiscount` (columns `user_id`, `current_level`,
`last_purchase_date`). -/
structure UserDiscount where
  user_id : Nat
  current_level : UserDiscountLevel
  last_purchase_date : Option Int
deriving DecidableEq, Repr

/-- The relational store backing the discount engine: the paid-order history
and the per-user discount rows. -/
structure DiscountDB where
  orders : List Order
  discounts : List UserDiscount
deriving DecidableEq, Repr

/-- The position of a level in `DiscountService.LEVEL_ORDER =
[NONE, BRONZE, SILVER, GOLD]` (`LEVEL_ORDER.index(level)`). -/
def levelIndex : UserDiscountLevel → Nat
  | UserDiscountLevel.none => 0
  | UserDiscountLevel.bronze => 1
  | UserDiscountLevel.silver => 2
  | UserDiscountLevel.gold => 3

/-- `LEVEL_ORDER[i]` (total: indices above 3 cannot arise). -/
def levelOfIndex : Nat → UserDiscountLevel
  | 0 => UserDiscountLevel.none
  | 1 => UserDiscountLevel.bronze
  | 2 => UserDiscountLevel.silver
  | _ => UserDiscountLevel.gold

/-- `OrderCRUD.get_monthly_total(user_id, month_start)`: the sum of `total`
over the user's PAID orders with `created_at >= month_start` (cents). -/
def get_monthly_total (db : DiscountDB) (user_id : Nat) (month_start : Int) : ℤ :=
  ((db.orders.filter (fun o =>
      o.user_id == user_id && decide (o.status = OrderStatus.paid)
        && decide (month_start ≤ o.created_at))).map (fun o => o.total)).sum

/-- `OrderCRUD.has_orders_in_range(user_id, start_date, end_date)` with the
default `status=OrderStatus.PAID` filter. -/
def has_orders_in_range (db : DiscountDB) (user_id : Nat)
    (start_date end_date : Int) : Bool :=
  db.orders.any (fun o =>
    o.user_id == user_id && decide (start_date ≤ o.created_at)
      && decide (o.created_at ≤ end_date) && decide (o.status = OrderStatus.paid))

/-- Step 2 of `DiscountService.on_order_paid`: run through GOLD → SILVER →
BRONZE and take the first level whose threshold the monthly total meets
(`Settings` thresholds 50 000.00 / 30 000.00 / 10 000.00, in cents). -/
def computeLevel (monthly_total : ℤ) : UserDiscountLevel :=
  if 5000000 ≤ monthly_total then UserDiscountLevel.gold
  else if 3000000 ≤ monthly_total then UserDiscountLevel.silver
  else if 1000000 ≤ monthly_total then UserDiscountLevel.bronze
  else UserDiscountLevel.none

/-- `UserDiscountCRUD.get_or_create(user_id)`: the stored row, or a fresh
one at level NONE. -/
def discountGetOrCreate (db : DiscountDB) (user_id : Nat) :
    DiscountDB × UserDiscount :=
  match db.discounts.find? (fun d => d.user_id == user_id) with
  | some d => (db, d)
  | Option.none =>
    let d : UserDiscount := ⟨user_id, UserDiscountLevel.none, Option.none⟩
    ({ db with discounts := db.discounts ++ [d] }, d)

/-- `UserDiscountCRUD.update(user_id, level=.., last_purchase=..)`: sets
`current_level`, and `last_purchase_date` only when a date is passed
(`None` leaves the stored date unchanged, as the `vals` dict is built). -/
def discountUpdate (db : DiscountDB) (user_id : Nat)
    (level : UserDiscountLevel) (last_purchase : Option Int) : DiscountDB :=
  { db with discounts := db.discounts.map (fun d =>
      if d.user_id == user_id then
        { d with
          current_level := level,
          last_purchase_date :=
            match last_purchase with
            | some day => some day
            | Option.none => d.last_purchase_date }
      else d) }

/-- The stored discount tier of a user (NONE when no row exists, which is
also what a freshly created row holds). -/
def storedLevel (db : DiscountDB) (user_id : Nat) : UserDiscountLevel :=
  match db.discounts.find? (fun d => d.user_id == user_id) with
  | some d => d.current_level
  | Option.none => UserDiscountLevel.none

/-- `DiscountService.on_order_paid(user_id, order_id)`: no-op unless the
order exists and is PAID (a missing order raises `AttributeError` with no
state change); otherwise compute the month's PAID spend, map it to a tier,
and store `LEVEL_ORDER[max(stored index, computed index)]`, updating
`last_purchase_date` to `today` when the monthly total is positive.
`today` and `month_start` stand for `date.today()` and its first-of-month. -/
def on_order_paid (db : DiscountDB) (user_id order_id : Nat)
    (today month_start : Int) : DiscountDB :=
  match db.orders.find? (fun o => o.id == order_id) with
  | Option.none => db
  | some order =>
    if order.status ≠ OrderStatus.paid then db
    else
      let monthly_total := get_monthly_total db user_id month_start
      let new_level := computeLevel monthly_total
      let pair := discountGetOrCreate db user_id
      let db1 := pair.1
      let record := pair.2
      let last_purchase :=
        if 0 < monthly_total then some today else record.last_purchase_date
      let final_index := max (levelIndex record.current_level) (levelIndex new_level)
      let final_level := levelOfIndex final_index
      discountUpdate db1 user_id final_level last_purchase

/-- Database errors the modelled CRUD layer can raise. -/
inductive SqlError
  | unconsumedColumnNames
deriving DecidableEq, Repr

/-- `UserDiscountCRUD.update_discount_level(user_id, new_level)` issues
`UPDATE user_discounts SET discount_level = :new_level`, but the
`UserDiscount` model has no `discount_level` column (the column is named
`current_level`), so SQLAlchemy rejects the statement at execution time
("Unconsumed column names: discount_level"): the call always raises and no
row is ever changed. -/
def update_discount_level (db : DiscountDB) (user_id : Nat)
    (new_level : UserDiscountLevel) : DiscountDB × Option SqlError :=
  (db, some SqlError.unconsumedColumnNames)

/-- `UserDiscountCRUD.get_users_with_discount()`: all rows with
`current_level != NONE`. -/
def get_users_with_discount (db : DiscountDB) : List UserDiscount :=
  db.discounts.filter (fun d => decide (d.current_level ≠ UserDiscountLevel.none))

/-- The `for record in users` loop of
`DiscountService.monthly_discount_decay`: users with a PAID order in the
previous month are skipped; for the others the one-rank-lower level is
computed (`LEVEL_ORDER[max(0, index - 1)]`, here `Nat` truncated
subtraction) and written via `update_discount_level`.  There is no
`try/except` around the body, so the first raised error aborts the whole
loop. -/
def decayLoop (db : DiscountDB) (prev_start prev_end : Int) :
    List UserDiscount → DiscountDB × Option SqlError
  | [] => (db, Option.none)
  | record :: rest =>
    if has_orders_in_range db record.user_id prev_start prev_end then
      decayLoop db prev_start prev_end rest
    else
      let new_level := levelOfIndex (levelIndex record.current_level - 1)
      match update_discount_level db record.user_id new_level with
      | (db1, some e) => (db1, some e)
      | (db1, Option.none) => decayLoop db1 prev_start prev_end rest

/-- `DiscountService.monthly_discount_decay()`, with the previous month's
bounds passed in for the wall-clock computation. -/
def monthly_discount_decay (db : DiscountDB) (prev_start prev_end : Int) :
    DiscountDB × Option SqlError :=
  decayLoop db prev_start prev_end (get_users_with_discount db)

/-- The operations that touch discount rows: `on_order_paid` (fired by the
payment flow at any time) and the decay job (scheduled by
`monthly_discount_decay_task`'s cron trigger for the first of the month at
midnight, i.e. only at a month boundary). -/
inductive DiscountOp
  | orderPaid (user_id order_id : Nat) (today month_start : Int)
  | decay (prev_start prev_end : Int)

/-- Run one discount operation, keeping only its database effect. -/
def runDiscountOp (db : DiscountDB) : DiscountOp → DiscountDB
  | DiscountOp.orderPaid user_id order_id today month_start =>
    on_order_paid db user_id order_id today month_start
  | DiscountOp.decay prev_start prev_end =>
    (monthly_discount_decay db prev_start prev_end).1

/-- Run a sequence of discount operations. -/
def runDiscountOps (db : DiscountDB) (ops : List DiscountOp) : DiscountDB :=
  ops.foldl runDiscountOp db

/-!
### Concrete states used by witnesses and counterexamples
-/

/-- A PAID order of 1000.00 placed by user 10. -/
def exOrder : Order := ⟨100, 10, OrderStatus.paid, 100000, 0⟩

/-- Referral node of the paying user 10; referred by node 2. -/
def exNode1 : Referral := ⟨1, 10, some 2⟩

/-- Level-1 ancestor (user 20), referred by node 3. -/
def exNode2 : Referral := ⟨2, 20, some 3⟩

/-- Level-2 ancestor (user 30), referred by node 4. -/
def exNode3 : Referral := ⟨3, 30, some 4⟩

/-- Level-3 ancestor (user 40), a root. -/
def exNode4 : Referral := ⟨4, 40, Option.none⟩

/-- A database with a three-ancestor referral chain above user 10 and zero
balances everywhere. -/
def exDb : DB :=
  ⟨[exNode1, exNode2, exNode3, exNode4],
   [⟨20, 0, some "acct20"⟩, ⟨30, 0, some "acct30"⟩, ⟨40, 0, some "acct40"⟩],
   [], []⟩

/-- A database with a single referral node (id 1, user 10), the user holding
a running balance of 100.00 with payment details on file, and no ledger
entries or payout requests (so the 30-day-matured available balance is 0). -/
def payoutDb : DB :=
  ⟨[⟨1, 10, Option.none⟩], [⟨10, 10000, some "acct10"⟩], [], []⟩

/-- A database with a two-ancestor chain above user 10 (nodes 2 and 3, users
20 and 30) and zero balances. -/
def partialDb : DB :=
  ⟨[⟨1, 10, some 2⟩, ⟨2, 20, some 3⟩, ⟨3, 30, Option.none⟩],
   [⟨20, 0, some "acct20"⟩, ⟨30, 0, some "acct30"⟩], [], []⟩

/-- A database with one referral node (id 1, user 10) holding a matured
100.00 ledger entry, an APPROVED payout request (id 5) and a REJECTED one
(id 6), both of 50.00. -/
def statusDb : DB :=
  ⟨[⟨1, 10, Option.none⟩], [⟨10, 0, some "acct10"⟩],
   [⟨1, 2, some 9, 10000, -100, Option.none⟩],
   [⟨5, 1, 5000, ReferralPayoutStatus.approved, "acct10"⟩,
    ⟨6, 1, 5000, ReferralPayoutStatus.rejected, "acct10"⟩]⟩

/-- A ledger with one matured 50.00 entry for referrer node 1 and no payout
requests. -/
def availDb : DB :=
  ⟨[], [], [⟨1, 2, some 9, 5000, -40, Option.none⟩], []⟩

/-- A matured (40 days old at `now = 0`), non-reverted 7.00 entry for node 1. -/
def bMat : ReferralBonus := ⟨1, 2, some 8, 700, -40, Option.none⟩

/-- A 5-day-old 9.00 entry for node 1 (younger than the 30-day window). -/
def bYoung : ReferralBonus := ⟨1, 2, some 8, 900, -5, Option.none⟩

/-- A matured but reverted 11.00 entry for node 1. -/
def bRev : ReferralBonus := ⟨1, 2, Option.none, 1100, -50, some (-1)⟩

/-- A PENDING payout request of 3.00 by node 1. -/
def pPend : ReferralPayoutRequest := ⟨7, 1, 300, ReferralPayoutStatus.pending, "a"⟩

/-- An APPROVED payout request of 4.00 by node 1. -/
def pAppr : ReferralPayoutRequest := ⟨8, 1, 400, ReferralPayoutStatus.approved, "a"⟩

/-- Discount state: user 1 at BRONZE with no order history. -/
def decayDb : DiscountDB := ⟨[], [⟨1, UserDiscountLevel.bronze, Option.none⟩]⟩

/-- Discount state: user 1 at BRONZE, with a PAID 32 000.00 order placed on
day 10. -/
def paidDb : DiscountDB :=
  ⟨[⟨50, 1, OrderStatus.paid, 3200000, 10⟩],
   [⟨1, UserDiscountLevel.bronze, Option.none⟩]⟩

/-- A database where user 10 owns root referral node 1 and user 77 has no
referral record yet. -/
def saveDb : DB := ⟨[⟨1, 10, Option.none⟩], [], [], []⟩

/-!
### Helper lemmas
-/

lemma find?_map_pred_eq {α : Type} (f : α → α) (p : α → Bool)
    (hp : ∀ a, p (f a) = p a) (l : List α) :
    (l.map f).find? p = (l.find? p).map f := by
  have hcomp : p ∘ f = p := funext hp
  rw [List.find?_map, hcomp]

lemma getUser_setUserBalance (db : DB) (x : Nat) (b : ℤ) (uid : Nat) :
    getUser (setUserBalance db x b) uid
      = (getUser db uid).map
          (fun u => if u.id == x then { u with bonus_balance := b } else u) := by
  unfold getUser setUserBalance
  refine find?_map_pred_eq _ _ (fun u => ?_) _
  by_cases h : u.id == x <;> simp [h]

lemma userBalance_setUserBalance_self {db : DB} {x : Nat} {u : User}
    (h : getUser db x = some u) (b : ℤ) :
    userBalance (setUserBalance db x b) x = b := by
  have hid0 := List.find?_some (show db.users.find? (fun v => v.id == x) = some u from h)
  have hid : (u.id == x) = true := hid0
  have hidx : u.id = x := by simpa using hid
  unfold userBalance
  rw [getUser_setUserBalance, h]
  simp [hidx]

lemma userBalance_setUserBalance_ne {x uid : Nat} (hne : uid ≠ x)
    (db : DB) (b : ℤ) :
    userBalance (setUserBalance db x b) uid = userBalance db uid := by
  unfold userBalance
  rw [getUser_setUserBalance]
  cases hg : getUser db uid with
  | none => rfl
  | some u =>
    have hid0 := List.find?_some (show db.users.find? (fun v => v.id == uid) = some u from hg)
    have hid : (u.id == uid) = true := hid0
    have huid : u.id = uid := by simpa using hid
    have hxid : ¬ u.id = x := by
      rw [huid]
      exact hne
    simp [hxid]

lemma isSome_getUser_setUserBalance (db : DB) (x : Nat) (b : ℤ) (uid : Nat) :
    (getUser (setUserBalance db x b) uid).isSome = (getUser db uid).isSome := by
  rw [getUser_setUserBalance]
  cases getUser db uid <;> rfl

lemma getUser_addBonus (db : DB) (e : ReferralBonus) (uid : Nat) :
    getUser (addBonus db e) uid = getUser db uid := rfl

lemma getReferralById_addBonus (db : DB) (e : ReferralBonus) (rid : Nat) :
    getReferralById (addBonus db e) rid = getReferralById db rid := rfl

lemma applyBonusStep_eq_of_pos (order : Order) (referral : Referral)
    (now : Int) (db : DB) (parent : Referral) (level : Nat)
    {u : User} (hrate : 0 < REFERRAL_LEVELS level)
    (hu : getUser db parent.user_id = some u) :
    applyBonusStep order referral now db parent level
      = setUserBalance (addBonus db (mkEntry order referral now level parent)) u.id
          (u.bonus_balance + bonusAmountCents order.total (REFERRAL_LEVELS level)) := by
  have hu1 : getUser (addBonus db (mkEntry order referral now level parent)) parent.user_id
      = some u := hu
  simp only [applyBonusStep, if_pos hrate]
  rw [hu1]

lemma applyBonusStep_eq_of_nonpos (order : Order) (referral : Referral)
    (now : Int) (db : DB) (parent : Referral) (level : Nat)
    (hrate : ¬ 0 < REFERRAL_LEVELS level) :
    applyBonusStep order referral now db parent level = db := by
  simp only [applyBonusStep, if_neg hrate]

lemma applyBonusStep_referrals (order : Order) (referral : Referral)
    (now : Int) (db : DB) (parent : Referral) (level : Nat)
    (hu : (getUser db parent.user_id).isSome) :
    (applyBonusStep order referral now db parent level).referrals = db.referrals := by
  by_cases hrate : 0 < REFERRAL_LEVELS level
  · obtain ⟨u, hu⟩ := Option.isSome_iff_exists.mp hu
    rw [applyBonusStep_eq_of_pos order referral now db parent level hrate hu]
    rfl
  · rw [applyBonusStep_eq_of_nonpos order referral now db parent level hrate]

lemma applyBonusStep_payouts (order : Order) (referral : Referral)
    (now : Int) (db : DB) (parent : Referral) (level : Nat)
    (hu : (getUser db parent.user_id).isSome) :
    (applyBonusStep order referral now db parent level).payout_requests
      = db.payout_requests := by
  by_cases hrate : 0 < REFERRAL_LEVELS level
  · obtain ⟨u, hu⟩ := Option.isSome_iff_exists.mp hu
    rw [applyBonusStep_eq_of_pos order referral now db parent level hrate hu]
    rfl
  · rw [applyBonusStep_eq_of_nonpos order referral now db parent level hrate]

lemma applyBonusStep_bonuses (order : Order) (referral : Referral)
    (now : Int) (db : DB) (parent : Referral) (level : Nat)
    (hu : (getUser db parent.user_id).isSome) :
    (applyBonusStep order referral now db parent level).referral_bonuses
      = db.referral_bonuses
          ++ (if 0 < REFERRAL_LEVELS level then
                [mkEntry order referral now level parent]
              else []) := by
  by_cases hrate : 0 < REFERRAL_LEVELS level
  · obtain ⟨u, hu⟩ := Option.isSome_iff_exists.mp hu
    rw [applyBonusStep_eq_of_pos order referral now db parent level hrate hu]
    simp [setUserBalance, addBonus, hrate]
  · rw [applyBonusStep_eq_of_nonpos order referral now db parent level hrate]
    simp [hrate]

lemma isSome_getUser_applyBonusStep (order : Order) (referral : Referral)
    (now : Int) (db : DB) (parent : Referral) (level : Nat)
    (hu : (getUser db parent.user_id).isSome) (uid : Nat) :
    (getUser (applyBonusStep order referral now db parent level) uid).isSome
      = (getUser db uid).isSome := by
  by_cases hrate : 0 < REFERRAL_LEVELS level
  · obtain ⟨u, hu⟩ := Option.isSome_iff_exists.mp hu
    rw [applyBonusStep_eq_of_pos order referral now db parent level hrate hu,
      isSome_getUser_setUserBalance]
    rfl
  · rw [applyBonusStep_eq_of_nonpos order referral now db parent level hrate]

lemma applyBonusStep_userBalance (order : Order) (referral : Referral)
    (now : Int) (db : DB) (parent : Referral) (level : Nat)
    (hu : (getUser db parent.user_id).isSome) (uid : Nat) :
    userBalance (applyBonusStep order referral now db parent level) uid
      = userBalance db uid
          + (if 0 < REFERRAL_LEVELS level ∧ parent.user_id = uid then
               bonusAmountCents order.total (REFERRAL_LEVELS level)
             else 0) := by
  by_cases hrate : 0 < REFERRAL_LEVELS level
  · obtain ⟨u, hu⟩ := Option.isSome_iff_exists.mp hu
    rw [applyBonusStep_eq_of_pos order referral now db parent level hrate hu]
    have hid0 :=
      List.find?_some
        (show db.users.find? (fun v => v.id == parent.user_id) = some u from hu)
    have hid1 : (u.id == parent.user_id) = true := hid0
    have hid : u.id = parent.user_id := by simpa using hid1
    by_cases heq : parent.user_id = uid
    · subst heq
      rw [hid,
        userBalance_setUserBalance_self
          (show getUser (addBonus db (mkEntry order referral now level parent))
              parent.user_id = some u from hu)]
      have hbal : userBalance db parent.user_id = u.bonus_balance := by
        unfold userBalance
        rw [hu]
      rw [hbal]
      simp [hrate]
    · rw [hid, userBalance_setUserBalance_ne (fun h => heq h.symm)]
      have hsame : userBalance (addBonus db (mkEntry order referral now level parent)) uid
          = userBalance db uid := rfl
      rw [hsame]
      simp [heq]
  · rw [applyBonusStep_eq_of_nonpos order referral now db parent level hrate]
    simp [hrate]

lemma ancestorChain_congr {db st : DB} (h : st.referrals = db.referrals) :
    ∀ {cur : Option Nat} {as : List Referral},
      AncestorChain db cur as → AncestorChain st cur as := by
  intro cur as hch
  induction hch with
  | nil => exact AncestorChain.nil
  | cons hlook _ ih =>
    refine AncestorChain.cons ?_ ih
    unfold getReferralById at hlook ⊢
    rw [h]
    exact hlook

/-- The rate schedule is positive on levels 1 through `REFERRAL_MAX_LEVEL`. -/
lemma REFERRAL_LEVELS_pos (level : Nat) (h1 : 1 ≤ level) (h5 : level ≤ 5) :
    0 < REFERRAL_LEVELS level := by
  interval_cases level <;> decide

/-- Everything `referralBonusWalk` does while consuming a full ancestor
chain of length at most the remaining levels: referrals and payout requests
are untouched, the ledger grows by exactly `cascadeEntries`, every balance
grows by exactly `chainCredit`, and user-row existence is preserved. -/
lemma referralBonusWalk_spec (order : Order) (referral : Referral) (now : Int) :
    ∀ (as : List Referral) (fuel : Nat) (db : DB) (cur : Option Nat) (level : Nat),
      AncestorChain db cur as →
      as.length ≤ fuel →
      level + as.length ≤ REFERRAL_MAX_LEVEL + 1 →
      (∀ a ∈ as, (getUser db a.user_id).isSome) →
      (referralBonusWalk order referral now fuel db cur level).referrals
          = db.referrals ∧
      (referralBonusWalk order referral now fuel db cur level).payout_requests
          = db.payout_requests ∧
      (referralBonusWalk order referral now fuel db cur level).referral_bonuses
          = db.referral_bonuses ++ cascadeEntries order referral now level as ∧
      (∀ uid, userBalance (referralBonusWalk order referral now fuel db cur level) uid
          = userBalance db uid + chainCredit order level as uid) ∧
      (∀ uid, (getUser (referralBonusWalk order referral now fuel db cur level) uid).isSome
          = (getUser db uid).isSome) := by
  intro as
  induction as with
  | nil =>
    intro fuel db cur level hchain _ _ _
    cases hchain
    cases fuel <;>
      exact ⟨rfl, rfl, by simp [referralBonusWalk, cascadeEntries],
        fun uid => by simp [referralBonusWalk, chainCredit], fun uid => rfl⟩
  | cons parent rest ih =>
    intro fuel db cur level hchain hfuel hlevel husers
    cases hchain with
    | cons hlook hrest =>
      rename_i rid
      cases fuel with
      | zero => simp at hfuel
      | succ f =>
        have hlev : level ≤ REFERRAL_MAX_LEVEL := by
          simp only [REFERRAL_MAX_LEVEL] at hlevel ⊢
          simp only [List.length_cons] at hlevel
          omega
        have hwalk : referralBonusWalk order referral now (f + 1) db (some rid) level
            = referralBonusWalk order referral now f
                (applyBonusStep order referral now db parent level)
                parent.referrer_id (level + 1) := by
          simp only [referralBonusWalk, if_pos hlev, hlook]
        have huparent : (getUser db parent.user_id).isSome :=
          husers parent (List.mem_cons_self parent rest)
        set db1 := applyBonusStep order referral now db parent level with hdb1
        have hrefs : db1.referrals = db.referrals :=
          applyBonusStep_referrals order referral now db parent level huparent
        have hpay : db1.payout_requests = db.payout_requests :=
          applyBonusStep_payouts order referral now db parent level huparent
        have hbon : db1.referral_bonuses
            = db.referral_bonuses
                ++ (if 0 < REFERRAL_LEVELS level then
                      [mkEntry order referral now level parent]
                    else []) :=
          applyBonusStep_bonuses order referral now db parent level huparent
        have hsome : ∀ uid, (getUser db1 uid).isSome = (getUser db uid).isSome :=
          isSome_getUser_applyBonusStep order referral now db parent level huparent
        have hbal : ∀ uid, userBalance db1 uid
            = userBalance db uid
                + (if 0 < REFERRAL_LEVELS level ∧ parent.user_id = uid then
                     bonusAmountCents order.total (REFERRAL_LEVELS level)
                   else 0) :=
          applyBonusStep_userBalance order referral now db parent level huparent
        have hchain1 : AncestorChain db1 parent.referrer_id rest :=
          ancestorChain_congr hrefs hrest
        have husers1 : ∀ a ∈ rest, (getUser db1 a.user_id).isSome := by
          intro a ha
          rw [hsome]
          exact husers a (List.mem_cons_of_mem parent ha)
        have hlevel1 : (level + 1) + rest.length ≤ REFERRAL_MAX_LEVEL + 1 := by
          simp only [List.length_cons] at hlevel
          omega
        obtain ⟨ih1, ih2, ih3, ih4, ih5⟩ :=
          ih f db1 parent.referrer_id (level + 1) hchain1
            (by simp only [List.length_cons] at hfuel; omega) hlevel1 husers1
        rw [hwalk]
        refine ⟨by rw [ih1, hrefs], by rw [ih2, hpay], ?_, ?_, ?_⟩
        · rw [ih3, hbon, List.append_assoc]
          congr 1
          by_cases hrate : 0 < REFERRAL_LEVELS level <;>
            simp [cascadeEntries, hrate]
        · intro uid
          rw [ih4 uid, hbal uid]
          have : chainCredit order level (parent :: rest) uid
              = (if 0 < REFERRAL_LEVELS level ∧ parent.user_id = uid then
                   bonusAmountCents order.total (REFERRAL_LEVELS level)
                 else 0)
                  + chainCredit order (level + 1) rest uid := rfl
          rw [this]
          omega
        · intro uid
          rw [ih5 uid, hsome uid]

/-- When every visited level has a positive rate, `cascadeEntries` has one
entry per ancestor and the entry at position `k` is the level-`(level + k)`
entry for the `k`-th ancestor. -/
lemma cascadeEntries_length_get (order : Order) (referral : Referral) (now : Int) :
    ∀ (as : List Referral) (level : Nat),
      (∀ j, j < as.length → 0 < REFERRAL_LEVELS (level + j)) →
      (cascadeEntries order referral now level as).length = as.length ∧
      ∀ k, k < as.length →
        (cascadeEntries order referral now level as).get? k
          = (as.get? k).map (fun a => mkEntry order referral now (level + k) a) := by
  intro as
  induction as with
  | nil => intro level _; exact ⟨rfl, fun k hk => by simp at hk⟩
  | cons parent rest ih =>
    intro level hpos
    have hrate : 0 < REFERRAL_LEVELS level := by
      have := hpos 0 (by simp)
      simpa using this
    have hrest : ∀ j, j < rest.length → 0 < REFERRAL_LEVELS ((level + 1) + j) := by
      intro j hj
      have := hpos (j + 1) (by simp only [List.length_cons]; omega)
      have harith : level + (j + 1) = (level + 1) + j := by omega
      rwa [harith] at this
    obtain ⟨ihlen, ihget⟩ := ih (level + 1) hrest
    have hcons : cascadeEntries order referral now level (parent :: rest)
        = mkEntry order referral now level parent
            :: cascadeEntries order referral now (level + 1) rest := by
      simp [cascadeEntries, hrate]
    constructor
    · rw [hcons]
      simp [ihlen]
    · intro k hk
      rw [hcons]
      cases k with
      | zero => simp
      | succ k =>
        have hk3 : k < rest.length := by
          simp only [List.length_cons] at hk
          omega
        have hstep := ihget k hk3
        have harith : (level + 1) + k = level + (k + 1) := by omega
        rw [harith] at hstep
        simpa using hstep

/-- A chain none of whose members belongs to `uid` credits `uid` nothing. -/
lemma chainCredit_eq_zero (order : Order) :
    ∀ (as : List Referral) (level : Nat) (uid : Nat),
      (∀ a ∈ as, a.user_id ≠ uid) →
      chainCredit order level as uid = 0 := by
  intro as
  induction as with
  | nil => intro level uid _; rfl
  | cons parent rest ih =>
    intro level uid hne
    have hhead : parent.user_id ≠ uid := hne parent (List.mem_cons_self parent rest)
    have : chainCredit order level (parent :: rest) uid
        = (if 0 < REFERRAL_LEVELS level ∧ parent.user_id = uid then
             bonusAmountCents order.total (REFERRAL_LEVELS level)
           else 0)
            + chainCredit order (level + 1) rest uid := rfl
    rw [this, ih (level + 1) uid (fun a ha => hne a (List.mem_cons_of_mem parent ha)),
      if_neg (fun hcon => hhead hcon.2)]
    simp

/-- On a chain whose members' users are pairwise distinct and whose levels
all pay, the total credited to the `k`-th ancestor's user is exactly the
level-`(level + k)` bonus amount. -/
lemma chainCredit_get (order : Order) :
    ∀ (as : List Referral) (level k : Nat) (hk : k < as.length),
      (∀ j, j < as.length → 0 < REFERRAL_LEVELS (level + j)) →
      as.Pairwise (fun a b => a.user_id ≠ b.user_id) →
      chainCredit order level as ((as.get ⟨k, hk⟩).user_id)
        = bonusAmountCents order.total (REFERRAL_LEVELS (level + k)) := by
  intro as
  induction as with
  | nil => intro level k hk; simp at hk
  | cons parent rest ih =>
    intro level k hk hpos hpw
    have hrate : 0 < REFERRAL_LEVELS level := by
      have := hpos 0 (by simp)
      simpa using this
    obtain ⟨hhead, htail⟩ := List.pairwise_cons.mp hpw
    have hunfold : ∀ uid, chainCredit order level (parent :: rest) uid
        = (if 0 < REFERRAL_LEVELS level ∧ parent.user_id = uid then
             bonusAmountCents order.total (REFERRAL_LEVELS level)
           else 0)
            + chainCredit order (level + 1) rest uid := fun uid => rfl
    cases k with
    | zero =>
      have hget0 : (parent :: rest).get ⟨0, hk⟩ = parent := rfl
      rw [hget0, hunfold,
        chainCredit_eq_zero order rest (level + 1) parent.user_id
          (fun a ha => fun hcon => hhead a ha hcon.symm),
        if_pos ⟨hrate, rfl⟩, Nat.add_zero]
      omega
    | succ k =>
      have hk3 : k < rest.length := by
        simp only [List.length_cons] at hk
        omega
      have hne : parent.user_id ≠ (rest.get ⟨k, hk3⟩).user_id :=
        hhead (rest.get ⟨k, hk3⟩) (List.get_mem rest k hk3)
      have hrest : ∀ j, j < rest.length → 0 < REFERRAL_LEVELS ((level + 1) + j) := by
        intro j hj
        have := hpos (j + 1) (by simp only [List.length_cons]; omega)
        have harith : level + (j + 1) = (level + 1) + j := by omega
        rwa [harith] at this
      have hget : (parent :: rest).get ⟨k + 1, hk⟩ = rest.get ⟨k, hk3⟩ := rfl
      rw [hget, hunfold, if_neg (fun hcon => hne hcon.2),
        ih (level + 1) k hk3 hrest htail]
      have harith : (level + 1) + k = level + (k + 1) := by omega
      rw [harith]
      omega

/-- `apply_referral_bonus` on a PAID order whose payer has the full ancestor
chain `as` (of length at most `REFERRAL_MAX_LEVEL`, all ancestor users
present): referrals/payout requests untouched, ledger extended by
`cascadeEntries`, balances raised by `chainCredit`, user rows preserved. -/
lemma apply_referral_bonus_spec (order : Order) (now : Int) (db : DB)
    (referral : Referral) (as : List Referral)
    (hpaid : order.status = OrderStatus.paid)
    (href : getReferralByUserId db order.user_id = some referral)
    (hchain : AncestorChain db referral.referrer_id as)
    (hlen : as.length ≤ REFERRAL_MAX_LEVEL)
    (husers : ∀ a ∈ as, (getUser db a.user_id).isSome) :
    (apply_referral_bonus order now db).referrals = db.referrals ∧
    (apply_referral_bonus order now db).payout_requests = db.payout_requests ∧
    (apply_referral_bonus order now db).referral_bonuses
        = db.referral_bonuses ++ cascadeEntries order referral now 1 as ∧
    (∀ uid, userBalance (apply_referral_bonus order now db) uid
        = userBalance db uid + chainCredit order 1 as uid) ∧
    (∀ uid, (getUser (apply_referral_bonus order now db) uid).isSome
        = (getUser db uid).isSome) := by
  have hnn : ¬ order.status ≠ OrderStatus.paid := by simp [hpaid]
  cases hrid : referral.referrer_id with
  | none =>
    rw [hrid] at hchain
    cases hchain
    have happ : apply_referral_bonus order now db = db := by
      simp only [apply_referral_bonus, if_neg hnn, href, hrid]
    rw [happ]
    exact ⟨rfl, rfl, by simp [cascadeEntries], fun uid => by simp [chainCredit],
      fun uid => rfl⟩
  | some rid =>
    rw [hrid] at hchain
    have happ : apply_referral_bonus order now db
        = referralBonusWalk order referral now REFERRAL_MAX_LEVEL db (some rid) 1 := by
      simp only [apply_referral_bonus, if_neg hnn, href, hrid]
    rw [happ]
    exact referralBonusWalk_spec order referral now as REFERRAL_MAX_LEVEL db
      (some rid) 1 hchain hlen
      (by simp only [REFERRAL_MAX_LEVEL] at hlen ⊢; omega) husers

/-- C1: For every order with status PAID whose owner's referral node has a
full ancestor chain of length `L ≤ REFERRAL_MAX_LEVEL = 5` (all ancestor
user rows present, pairwise-distinct users), `apply_referral_bonus` creates
exactly `L` ledger entries; the entry at (0-based) position `k` carries
`bonus_amount = round(order.total * LEVEL_RATES[k+1], 2)` (banker's decimal
rounding to 2 places, rates 8%, 5%, 4%, 2%, 1%), names the `k`-th ancestor
as referrer with the triggering node and order; every ancestor's running
balance grows by exactly its entry's amount; and the total credited equals
the sum of the created entries. -/
theorem apply_referral_bonus_cascade (order : Order) (now : Int) (db : DB)
    (referral : Referral) (as : List Referral)
    (hpaid : order.status = OrderStatus.paid)
    (href : getReferralByUserId db order.user_id = some referral)
    (hchain : AncestorChain db referral.referrer_id as)
    (hlen : as.length ≤ REFERRAL_MAX_LEVEL)
    (husers : ∀ a ∈ as, (getUser db a.user_id).isSome)
    (hdistinct : as.Pairwise (fun a b => a.user_id ≠ b.user_id)) :
    (apply_referral_bonus order now db).referral_bonuses
        = db.referral_bonuses ++ cascadeEntries order referral now 1 as ∧
    (cascadeEntries order referral now 1 as).length = as.length ∧
    (∀ k (hk : k < as.length) (hk2 : k < (cascadeEntries order referral now 1 as).length),
      ((cascadeEntries order referral now 1 as).get ⟨k, hk2⟩).bonus_amount
          = bonusAmountCents order.total (REFERRAL_LEVELS (k + 1)) ∧
      ((cascadeEntries order referral now 1 as).get ⟨k, hk2⟩).referrer_id
          = (as.get ⟨k, hk⟩).id ∧
      ((cascadeEntries order referral now 1 as).get ⟨k, hk2⟩).referral_id
          = referral.id ∧
      ((cascadeEntries order referral now 1 as).get ⟨k, hk2⟩).order_id
          = some order.id) ∧
    (∀ k (hk : k < as.length),
      userBalance (apply_referral_bonus order now db) ((as.get ⟨k, hk⟩).user_id)
        = userBalance db ((as.get ⟨k, hk⟩).user_id)
            + bonusAmountCents order.total (REFERRAL_LEVELS (k + 1))) ∧
    (as.map (fun a =>
        userBalance (apply_referral_bonus order now db) a.user_id
          - userBalance db a.user_id)).sum
      = ((cascadeEntries order referral now 1 as).map (fun e => e.bonus_amount)).sum := by
  have hpos : ∀ j, j < as.length → 0 < REFERRAL_LEVELS (1 + j) := by
    intro j hj
    have h5 : as.length ≤ 5 := hlen
    exact REFERRAL_LEVELS_pos (1 + j) (by omega) (by omega)
  obtain ⟨hrefs, hpay, hbon, hbal, hsome⟩ :=
    apply_referral_bonus_spec order now db referral as hpaid href hchain hlen husers
  obtain ⟨clen, cget⟩ := cascadeEntries_length_get order referral now as 1 hpos
  have hentry : ∀ k (hk : k < as.length)
      (hk2 : k < (cascadeEntries order referral now 1 as).length),
      (cascadeEntries order referral now 1 as).get ⟨k, hk2⟩
        = mkEntry order referral now (1 + k) (as.get ⟨k, hk⟩) := by
    intro k hk hk2
    have h1 : (cascadeEntries order referral now 1 as).get? k
        = some ((cascadeEntries order referral now 1 as).get ⟨k, hk2⟩) :=
      List.get?_eq_get hk2
    have h2 : as.get? k = some (as.get ⟨k, hk⟩) := List.get?_eq_get hk
    have h3 := cget k hk
    rw [h1, h2] at h3
    simpa using h3
  have hdelta : ∀ k (hk : k < as.length),
      userBalance (apply_referral_bonus order now db) ((as.get ⟨k, hk⟩).user_id)
        = userBalance db ((as.get ⟨k, hk⟩).user_id)
            + bonusAmountCents order.total (REFERRAL_LEVELS (k + 1)) := by
    intro k hk
    rw [hbal ((as.get ⟨k, hk⟩).user_id),
      chainCredit_get order as 1 k hk hpos hdistinct, Nat.add_comm 1 k]
  refine ⟨hbon, clen, ?_, hdelta, ?_⟩
  · intro k hk hk2
    rw [hentry k hk hk2, Nat.add_comm 1 k]
    exact ⟨rfl, rfl, rfl, rfl⟩
  · apply congrArg List.sum
    apply List.ext_get (by simp [clen])
    intro n h1 h2
    have hn : n < as.length := by simpa using h1
    have hn2 : n < (cascadeEntries order referral now 1 as).length := by
      simpa using h2
    simp only [List.get_map]
    rw [hdelta n hn, hentry n hn hn2, Nat.add_comm 1 n]
    simp [mkEntry]

/-- Witness for C1: the three-ancestor chain above user 10 in `exDb`, paid
order of 1000.00 — entries of 80.00, 50.00, 40.00 are created and credited. -/
theorem apply_referral_bonus_cascade_witness :
    (apply_referral_bonus exOrder 0 exDb).referral_bonuses
        = exDb.referral_bonuses
            ++ cascadeEntries exOrder exNode1 0 1 [exNode2, exNode3, exNode4] ∧
    (cascadeEntries exOrder exNode1 0 1 [exNode2, exNode3, exNode4]).length
        = [exNode2, exNode3, exNode4].length ∧
    (∀ k (hk : k < [exNode2, exNode3, exNode4].length)
        (hk2 : k < (cascadeEntries exOrder exNode1 0 1 [exNode2, exNode3, exNode4]).length),
      ((cascadeEntries exOrder exNode1 0 1 [exNode2, exNode3, exNode4]).get ⟨k, hk2⟩).bonus_amount
          = bonusAmountCents exOrder.total (REFERRAL_LEVELS (k + 1)) ∧
      ((cascadeEntries exOrder exNode1 0 1 [exNode2, exNode3, exNode4]).get ⟨k, hk2⟩).referrer_id
          = ([exNode2, exNode3, exNode4].get ⟨k, hk⟩).id ∧
      ((cascadeEntries exOrder exNode1 0 1 [exNode2, exNode3, exNode4]).get ⟨k, hk2⟩).referral_id
          = exNode1.id ∧
      ((cascadeEntries exOrder exNode1 0 1 [exNode2, exNode3, exNode4]).get ⟨k, hk2⟩).order_id
          = some exOrder.id) ∧
    (∀ k (hk : k < [exNode2, exNode3, exNode4].length),
      userBalance (apply_referral_bonus exOrder 0 exDb)
          (([exNode2, exNode3, exNode4].get ⟨k, hk⟩).user_id)
        = userBalance exDb (([exNode2, exNode3, exNode4].get ⟨k, hk⟩).user_id)
            + bonusAmountCents exOrder.total (REFERRAL_LEVELS (k + 1))) ∧
    ([exNode2, exNode3, exNode4].map (fun a =>
        userBalance (apply_referral_bonus exOrder 0 exDb) a.user_id
          - userBalance exDb a.user_id)).sum
      = ((cascadeEntries exOrder exNode1 0 1 [exNode2, exNode3, exNode4]).map
          (fun e => e.bonus_amount)).sum :=
  apply_referral_bonus_cascade exOrder 0 exDb exNode1 [exNode2, exNode3, exNode4]
    rfl (by decide)
    (AncestorChain.cons (by decide)
      (AncestorChain.cons (by decide)
        (AncestorChain.cons (by decide) AncestorChain.nil)))
    (by decide) (by decide) (by decide)

/-- C2 counterexample: re-running `apply_referral_bonus` on the already
credited PAID order of `exDb` creates three further ledger entries (3 → 6)
and doubles the level-1 referrer's balance (80.00 → 160.00): the cascade is
not idempotent — nothing checks for an existing entry with this `order_id`
and the model declares no unique constraint. -/
theorem apply_referral_bonus_reapply_counterexample :
    (apply_referral_bonus exOrder 0 exDb).referral_bonuses.length = 3 ∧
    (apply_referral_bonus exOrder 1
        (apply_referral_bonus exOrder 0 exDb)).referral_bonuses.length = 6 ∧
    userBalance (apply_referral_bonus exOrder 0 exDb) 20 = 8000 ∧
    userBalance (apply_referral_bonus exOrder 1
        (apply_referral_bonus exOrder 0 exDb)) 20 = 16000 := by
  decide

/-- C2 (amended): `apply_referral_bonus` is not idempotent.  Re-running it
on the same PAID order appends the whole entry list a second time and
credits every ancestor's balance a second time (doubling the credit),
because no existing-entry check or unique constraint guards the insert. -/
theorem apply_referral_bonus_not_idempotent (order : Order) (now1 now2 : Int)
    (db : DB) (referral : Referral) (as : List Referral)
    (hpaid : order.status = OrderStatus.paid)
    (href : getReferralByUserId db order.user_id = some referral)
    (hchain : AncestorChain db referral.referrer_id as)
    (hlen : as.length ≤ REFERRAL_MAX_LEVEL)
    (husers : ∀ a ∈ as, (getUser db a.user_id).isSome)
    (hdistinct : as.Pairwise (fun a b => a.user_id ≠ b.user_id)) :
    (apply_referral_bonus order now2
        (apply_referral_bonus order now1 db)).referral_bonuses
      = db.referral_bonuses ++ cascadeEntries order referral now1 1 as
          ++ cascadeEntries order referral now2 1 as ∧
    (∀ k (hk : k < as.length),
      userBalance
          (apply_referral_bonus order now2 (apply_referral_bonus order now1 db))
          ((as.get ⟨k, hk⟩).user_id)
        = userBalance db ((as.get ⟨k, hk⟩).user_id)
            + 2 * bonusAmountCents order.total (REFERRAL_LEVELS (k + 1))) := by
  have hpos : ∀ j, j < as.length → 0 < REFERRAL_LEVELS (1 + j) := by
    intro j hj
    have h5 : as.length ≤ 5 := hlen
    exact REFERRAL_LEVELS_pos (1 + j) (by omega) (by omega)
  obtain ⟨hrefs1, _, hbon1, hbal1, hsome1⟩ :=
    apply_referral_bonus_spec order now1 db referral as hpaid href hchain hlen husers
  set st1 := apply_referral_bonus order now1 db with hst1
  have href2 : getReferralByUserId st1 order.user_id = some referral := by
    unfold getReferralByUserId at href ⊢
    rw [hrefs1]
    exact href
  have hchain2 : AncestorChain st1 referral.referrer_id as :=
    ancestorChain_congr hrefs1 hchain
  have husers2 : ∀ a ∈ as, (getUser st1 a.user_id).isSome := by
    intro a ha
    rw [hsome1]
    exact husers a ha
  obtain ⟨_, _, hbon2, hbal2, _⟩ :=
    apply_referral_bonus_spec order now2 st1 referral as hpaid href2 hchain2 hlen husers2
  constructor
  · rw [hbon2, hbon1, List.append_assoc]
  · intro k hk
    rw [hbal2, hbal1, chainCredit_get order as 1 k hk hpos hdistinct,
      Nat.add_comm 1 k]
    omega

/-- Witness for C2's amended theorem at the `exDb` chain. -/
theorem apply_referral_bonus_not_idempotent_witness :
    (apply_referral_bonus exOrder 1
        (apply_referral_bonus exOrder 0 exDb)).referral_bonuses
      = exDb.referral_bonuses
          ++ cascadeEntries exOrder exNode1 0 1 [exNode2, exNode3, exNode4]
          ++ cascadeEntries exOrder exNode1 1 1 [exNode2, exNode3, exNode4] ∧
    (∀ k (hk : k < [exNode2, exNode3, exNode4].length),
      userBalance
          (apply_referral_bonus exOrder 1 (apply_referral_bonus exOrder 0 exDb))
          (([exNode2, exNode3, exNode4].get ⟨k, hk⟩).user_id)
        = userBalance exDb (([exNode2, exNode3, exNode4].get ⟨k, hk⟩).user_id)
            + 2 * bonusAmountCents exOrder.total (REFERRAL_LEVELS (k + 1))) :=
  apply_referral_bonus_not_idempotent exOrder 0 1 exDb exNode1
    [exNode2, exNode3, exNode4] rfl (by decide)
    (AncestorChain.cons (by decide)
      (AncestorChain.cons (by decide)
        (AncestorChain.cons (by decide) AncestorChain.nil)))
    (by decide) (by decide) (by decide)

/-- C3: `get_available_balance` counts exactly the matured
(`created_at ≤ now − min_age_days`), non-reverted ledger entries of the
referrer and subtracts exactly the PENDING payout-request amounts: adding a
matured non-reverted entry for the referrer raises it by that entry's
amount; adding an entry that is younger than the window, or reverted, or
someone else's, leaves it unchanged; adding a PENDING request of the
referrer lowers it by the requested amount; adding a non-PENDING
(approved/rejected) request leaves it unchanged. -/
theorem get_available_balance_correct (db : DB) (r : Nat) (now d : Int)
    (b : ReferralBonus) (p : ReferralPayoutRequest) :
    (b.referrer_id = r → b.reverted_at = Option.none → b.created_at ≤ now - d →
      get_available_balance (addBonus db b) r now d
        = get_available_balance db r now d + b.bonus_amount) ∧
    (now - d < b.created_at →
      get_available_balance (addBonus db b) r now d
        = get_available_balance db r now d) ∧
    (∀ t, b.reverted_at = some t →
      get_available_balance (addBonus db b) r now d
        = get_available_balance db r now d) ∧
    (b.referrer_id ≠ r →
      get_available_balance (addBonus db b) r now d
        = get_available_balance db r now d) ∧
    (p.referrer_id = r → p.status = ReferralPayoutStatus.pending →
      get_available_balance (addRequest db p) r now d
        = get_available_balance db r now d - p.amount) ∧
    (p.status ≠ ReferralPayoutStatus.pending →
      get_available_balance (addRequest db p) r now d
        = get_available_balance db r now d) := by
  refine ⟨?_, ?_, ?_, ?_, ?_, ?_⟩
  · intro h1 h2 h3
    simp only [get_available_balance, addBonus, List.filter_append, List.map_append,
      List.sum_append]
    rw [List.filter_singleton]
    simp [h1, h2, h3]
    omega
  · intro h1
    have h2 : ¬ b.created_at ≤ now - d := by omega
    simp only [get_available_balance, addBonus, List.filter_append, List.map_append,
      List.sum_append]
    rw [List.filter_singleton]
    simp [h2]
  · intro t h1
    simp only [get_available_balance, addBonus, List.filter_append, List.map_append,
      List.sum_append]
    rw [List.filter_singleton]
    simp [h1]
  · intro h1
    have hbeq : (b.referrer_id == r) = false := by simpa using h1
    simp only [get_available_balance, addBonus, List.filter_append, List.map_append,
      List.sum_append]
    rw [List.filter_singleton]
    simp [hbeq]
  · intro h1 h2
    simp only [get_available_balance, addRequest, List.filter_append, List.map_append,
      List.sum_append]
    rw [List.filter_singleton]
    simp [h1, h2]
    omega
  · intro h1
    simp only [get_available_balance, addRequest, List.filter_append, List.map_append,
      List.sum_append]
    rw [List.filter_singleton]
    simp [h1]

/-- Witness for C3 on the concrete ledger `availDb` at `now = 0` with the
default 30-day window: a matured 7.00 entry raises the available balance, a
5-day-old entry and a reverted entry do not change it, a PENDING 3.00
request lowers it, an APPROVED request does not. -/
theorem get_available_balance_correct_witness :
    get_available_balance (addBonus availDb bMat) 1 0 30
        = get_available_balance availDb 1 0 30 + 700 ∧
    get_available_balance (addBonus availDb bYoung) 1 0 30
        = get_available_balance availDb 1 0 30 ∧
    get_available_balance (addBonus availDb bRev) 1 0 30
        = get_available_balance availDb 1 0 30 ∧
    get_available_balance (addRequest availDb pPend) 1 0 30
        = get_available_balance availDb 1 0 30 - 300 ∧
    get_available_balance (addRequest availDb pAppr) 1 0 30
        = get_available_balance availDb 1 0 30 :=
  ⟨(get_available_balance_correct availDb 1 0 30 bMat pPend).1 rfl rfl (by decide),
   (get_available_balance_correct availDb 1 0 30 bYoung pPend).2.1 (by decide),
   (get_available_balance_correct availDb 1 0 30 bRev pPend).2.2.1 (-1) rfl,
   (get_available_balance_correct availDb 1 0 30 bMat pPend).2.2.2.2.1 rfl rfl,
   (get_available_balance_correct availDb 1 0 30 bMat pAppr).2.2.2.2.2 (by decide)⟩

/-- C4 counterexample: in `payoutDb` the referrer's ledger `available_balance`
is 0 (no ledger entries at all) under either conceivable key (node id 1 or
user id 10), yet `create_payout_request` for 50.00 succeeds — it inserts a
PENDING request and deducts the amount from the running `bonus_balance` —
because the guard compares against `user.bonus_balance` (100.00), not
against `get_available_balance`.  The claim "whenever
amount > available_balance the creation is rejected and the state is left
unchanged" is false here. -/
theorem create_payout_request_counterexample :
    get_available_balance payoutDb 1 0 30 = 0 ∧
    get_available_balance payoutDb 10 0 30 = 0 ∧
    (create_payout_request payoutDb 10 5000 5 99).2 = Option.none ∧
    (create_payout_request payoutDb 10 5000 5 99).1.payout_requests.length
        = payoutDb.payout_requests.length + 1 ∧
    userBalance (create_payout_request payoutDb 10 5000 5 99).1 10 = 5000 := by
  decide

/-- C4 (amended): the creation guard of `create_payout_request` is the
user's running `bonus_balance`, not the ledger `available_balance`: when
`bonus_balance < amount` it rejects with HTTP 417 leaving the state
unchanged; when the balance suffices but no payment details are on file it
rejects with HTTP 400 leaving the state unchanged; otherwise it inserts a
PENDING request and deducts `amount` from the running balance. -/
theorem create_payout_request_guard (db : DB) (user_id : Nat) (amount : ℤ)
    (nid rid : Nat) (node : Referral) (u : User)
    (hnode : getReferralByUserId db user_id = some node)
    (hu : getUser db user_id = some u) :
    (u.bonus_balance < amount →
      create_payout_request db user_id amount nid rid
        = (db, some PyError.httpException417)) ∧
    (¬ u.bonus_balance < amount → u.payment_details = Option.none →
      create_payout_request db user_id amount nid rid
        = (db, some PyError.httpException400)) ∧
    (∀ pd, ¬ u.bonus_balance < amount → u.payment_details = some pd →
      (create_payout_request db user_id amount nid rid).2 = Option.none ∧
      (create_payout_request db user_id amount nid rid).1.payout_requests
          = db.payout_requests
              ++ [⟨rid, user_id, amount, ReferralPayoutStatus.pending, pd⟩] ∧
      userBalance (create_payout_request db user_id amount nid rid).1 user_id
          = u.bonus_balance - amount) := by
  have hid0 :=
    List.find?_some (show db.users.find? (fun v => v.id == user_id) = some u from hu)
  have hid1 : (u.id == user_id) = true := hid0
  have hid : u.id = user_id := by simpa using hid1
  refine ⟨?_, ?_, ?_⟩
  · intro hlt
    simp only [create_payout_request, hnode, hu, if_pos hlt]
  · intro hge hpd
    simp only [create_payout_request, hnode, hu, if_neg hge, hpd]
  · intro pd hge hpd
    have hstep : create_payout_request db user_id amount nid rid
        = (setUserBalance
            (addRequest db ⟨rid, user_id, amount, ReferralPayoutStatus.pending, pd⟩)
            u.id (u.bonus_balance - amount), Option.none) := by
      simp only [create_payout_request, hnode, hu, if_neg hge, hpd]
    rw [hstep]
    refine ⟨rfl, rfl, ?_⟩
    have hreq : getUser
        (addRequest db ⟨rid, user_id, amount, ReferralPayoutStatus.pending, pd⟩)
        u.id = some u := by
      rw [hid]
      exact hu
    rw [← hid]
    exact userBalance_setUserBalance_self hreq (u.bonus_balance - amount)

lemma get_by_id_update_status (db : DB) (rid : Nat) (s : ReferralPayoutStatus) :
    (update_status db rid s).2
      = (get_by_id db rid).map (fun p => { p with status := s }) := by
  have hmap : get_by_id (update_status db rid s).1 rid
      = (get_by_id db rid).map
          (fun p => if p.id == rid then { p with status := s } else p) := by
    unfold get_by_id update_status
    refine find?_map_pred_eq _ _ (fun p => ?_) _
    by_cases h : p.id == rid <;> simp [h]
  show get_by_id (update_status db rid s).1 rid = _
  rw [hmap]
  cases hg : get_by_id db rid with
  | none => rfl
  | some p =>
    have hid0 :=
      List.find?_some
        (show db.payout_requests.find? (fun q => q.id == rid) = some p from hg)
    have hid : (p.id == rid) = true := hid0
    show some (if (p.id == rid) = true then { p with status := s } else p)
        = some { p with status := s }
    exact congrArg some (if_pos hid)

lemma userBalance_update_status (db : DB) (rid : Nat) (s : ReferralPayoutStatus)
    (uid : Nat) :
    userBalance (update_status db rid s).1 uid = userBalance db uid := rfl

/-- Witness for C4's amended theorem: in `payoutDb` (running balance
100.00), a 200.00 request is rejected with HTTP 417 and nothing changes,
while a 50.00 request is inserted as PENDING and the balance drops to 50.00. -/
theorem create_payout_request_guard_witness :
    create_payout_request payoutDb 10 20000 5 99
        = (payoutDb, some PyError.httpException417) ∧
    (create_payout_request payoutDb 10 5000 5 99).2 = Option.none ∧
    (create_payout_request payoutDb 10 5000 5 99).1.payout_requests
        = payoutDb.payout_requests
            ++ [⟨99, 10, 5000, ReferralPayoutStatus.pending, "acct10"⟩] ∧
    userBalance (create_payout_request payoutDb 10 5000 5 99).1 10
        = 10000 - 5000 :=
  ⟨(create_payout_request_guard payoutDb 10 20000 5 99 ⟨1, 10, Option.none⟩
      ⟨10, 10000, some "acct10"⟩ (by decide) (by decide)).1 (by decide),
   (create_payout_request_guard payoutDb 10 5000 5 99 ⟨1, 10, Option.none⟩
      ⟨10, 10000, some "acct10"⟩ (by decide) (by decide)).2.2 "acct10"
     (by decide) rfl⟩

/-- C5 counterexample: starting from `payoutDb` (running balance 100.00), a
successful 50.00 payout request followed by its rejection leaves the request
REJECTED but the running balance at 50.00, not restored to 100.00: the
create-then-reject round trip does change the user's balance, because
`reject_payout_request` is a bare status update and never refunds the amount
that `create_payout_request` deducted. -/
theorem reject_payout_request_counterexample :
    userBalance payoutDb 10 = 10000 ∧
    (create_payout_request payoutDb 10 5000 5 99).2 = Option.none ∧
    ((reject_payout_request
        (create_payout_request payoutDb 10 5000 5 99).1 99).2.map
      (fun p => p.status)) = some ReferralPayoutStatus.rejected ∧
    userBalance
        (reject_payout_request (create_payout_request payoutDb 10 5000 5 99).1 99).1
        10 = 5000 ∧
    userBalance
        (reject_payout_request (create_payout_request payoutDb 10 5000 5 99).1 99).1
        10 ≠ userBalance payoutDb 10 := by
  decide

/-- C5 (amended): `reject_payout_request` sets the request's status to
REJECTED but does not restore the amount reserved at creation: after a
successful `create_payout_request` of `amount` followed by its rejection,
the request is REJECTED and the user's running balance equals the original
balance minus `amount` (not the original balance). -/
theorem reject_after_create_leaves_deduction (db : DB) (user_id : Nat)
    (amount : ℤ) (nid rid : Nat) (node : Referral) (u : User) (pd : String)
    (hnode : getReferralByUserId db user_id = some node)
    (hu : getUser db user_id = some u)
    (hpd : u.payment_details = some pd)
    (hamt : ¬ u.bonus_balance < amount)
    (hfresh : ∀ p ∈ db.payout_requests, p.id ≠ rid) :
    (create_payout_request db user_id amount nid rid).2 = Option.none ∧
    ((reject_payout_request (create_payout_request db user_id amount nid rid).1
        rid).2.map (fun p => p.status)) = some ReferralPayoutStatus.rejected ∧
    userBalance
        (reject_payout_request (create_payout_request db user_id amount nid rid).1
          rid).1 user_id
      = u.bonus_balance - amount := by
  obtain ⟨hok, hreqs, hbal⟩ :=
    (create_payout_request_guard db user_id amount nid rid node u hnode hu).2.2
      pd hamt hpd
  set db1 := (create_payout_request db user_id amount nid rid).1 with hdb1
  have hfind : get_by_id db1 rid
      = some ⟨rid, user_id, amount, ReferralPayoutStatus.pending, pd⟩ := by
    unfold get_by_id
    rw [hreqs, List.find?_append]
    have hnone : db.payout_requests.find? (fun q => q.id == rid) = Option.none :=
      List.find?_eq_none.mpr (fun p hp => by simpa using hfresh p hp)
    rw [hnone]
    simp
  refine ⟨hok, ?_, ?_⟩
  · show ((update_status db1 rid ReferralPayoutStatus.rejected).2.map
        (fun p => p.status)) = some ReferralPayoutStatus.rejected
    rw [get_by_id_update_status, hfind]
    rfl
  · show userBalance (update_status db1 rid ReferralPayoutStatus.rejected).1 user_id
        = u.bonus_balance - amount
    rw [userBalance_update_status]
    exact hbal

/-- Witness for C5's amended theorem on `payoutDb`: create 50.00 then
reject; the request ends REJECTED and the balance ends at 50.00. -/
theorem reject_after_create_leaves_deduction_witness :
    (create_payout_request payoutDb 10 5000 5 99).2 = Option.none ∧
    ((reject_payout_request (create_payout_request payoutDb 10 5000 5 99).1
        99).2.map (fun p => p.status)) = some ReferralPayoutStatus.rejected ∧
    userBalance
        (reject_payout_request (create_payout_request payoutDb 10 5000 5 99).1
          99).1 10
      = 10000 - 5000 :=
  reject_after_create_leaves_deduction payoutDb 10 5000 5 99 ⟨1, 10, Option.none⟩
    ⟨10, 10000, some "acct10"⟩ "acct10" (by decide) (by decide) rfl (by decide)
    (by decide)

/-- C6: the cascade is not atomic.  On `partialDb` (a two-ancestor chain)
the fault-free run commits two ledger entries and credits user 20 with
80.00, and the session model with no fault agrees exactly with the plain
embedding.  But when the level-2 ledger INSERT fails, the durable database
keeps the level-1 entry (1 of 2) while the level-1 balance credit — staged
in the session but not yet committed when the exception hit — is rolled
back: some levels end up committed and others not, because
`ReferralBonusCRUD.create` calls `session.commit()` after every insert,
which commits the enclosing transaction and defeats the
`session.begin_nested()` savepoint around the walk. -/
theorem apply_referral_bonus_partial_commit :
    apply_referral_bonus_durable exOrder 0 Option.none partialDb
        = apply_referral_bonus exOrder 0 partialDb ∧
    (apply_referral_bonus_durable exOrder 0 Option.none partialDb).referral_bonuses.length
        = 2 ∧
    userBalance (apply_referral_bonus_durable exOrder 0 Option.none partialDb) 20
        = 8000 ∧
    (apply_referral_bonus_durable exOrder 0 (some 2) partialDb).referral_bonuses.length
        = 1 ∧
    userBalance (apply_referral_bonus_durable exOrder 0 (some 2) partialDb) 20 = 0 ∧
    userBalance (apply_referral_bonus_durable exOrder 0 (some 2) partialDb) 30 = 0 := by
  decide

/-- C7 counterexample: payout-request statuses are not terminal.  In
`statusDb`, request 5 is APPROVED, yet `reject_payout_request` moves it to
REJECTED; request 6 is REJECTED, yet `approve_payout_request` (the balance
re-check passes: 100.00 available against 50.00) moves it to APPROVED. -/
theorem payout_status_not_terminal_counterexample :
    (get_by_id statusDb 5).map (fun p => p.status)
        = some ReferralPayoutStatus.approved ∧
    ((reject_payout_request statusDb 5).2.map (fun p => p.status))
        = some ReferralPayoutStatus.rejected ∧
    (get_by_id statusDb 6).map (fun p => p.status)
        = some ReferralPayoutStatus.rejected ∧
    (approve_payout_request statusDb 6 0).2 = Option.none ∧
    (get_by_id (approve_payout_request statusDb 6 0).1 6).map (fun p => p.status)
        = some ReferralPayoutStatus.approved := by
  decide

/-- C7 (amended): `update_status` overwrites the stored status with the new
one regardless of the current status — the only defined guards are
`approve_payout_request`'s available-balance re-check and nothing at all in
`reject_payout_request` — so APPROVED and REJECTED are not terminal: any
request, whatever its current status, is moved to `s` by
`update_status _ _ s`, rejection needs no precondition, and approval only
needs sufficient available balance. -/
theorem update_status_unconditional (db : DB) (rid : Nat)
    (s : ReferralPayoutStatus) (req : ReferralPayoutRequest) (now : Int)
    (h : get_by_id db rid = some req) :
    (update_status db rid s).2 = some { req with status := s } ∧
    reject_payout_request db rid = update_status db rid ReferralPayoutStatus.rejected ∧
    (∀ node, getReferralById db req.referrer_id = some node →
      ¬ get_available_balance db node.id now 30 < req.amount →
      approve_payout_request db rid now
        = ((update_status db rid ReferralPayoutStatus.approved).1, Option.none)) := by
  refine ⟨?_, rfl, ?_⟩
  · rw [get_by_id_update_status, h]
    rfl
  · intro node hnode hbal
    simp only [approve_payout_request, h, hnode, if_neg hbal]

/-- Witness for C7's amended theorem: in `statusDb`, `update_status` drags
the APPROVED request 5 back to PENDING, and the REJECTED request 6 is
approved since node 1 has 100.00 of matured available balance. -/
theorem update_status_unconditional_witness :
    (update_status statusDb 5 ReferralPayoutStatus.pending).2
        = some ⟨5, 1, 5000, ReferralPayoutStatus.pending, "acct10"⟩ ∧
    reject_payout_request statusDb 5
        = update_status statusDb 5 ReferralPayoutStatus.rejected ∧
    approve_payout_request statusDb 6 0
        = ((update_status statusDb 6 ReferralPayoutStatus.approved).1, Option.none) :=
  ⟨(update_status_unconditional statusDb 5 ReferralPayoutStatus.pending
      ⟨5, 1, 5000, ReferralPayoutStatus.approved, "acct10"⟩ 0 (by decide)).1,
   (update_status_unconditional statusDb 5 ReferralPayoutStatus.pending
      ⟨5, 1, 5000, ReferralPayoutStatus.approved, "acct10"⟩ 0 (by decide)).2.1,
   (update_status_unconditional statusDb 6 ReferralPayoutStatus.approved
      ⟨6, 1, 5000, ReferralPayoutStatus.rejected, "acct10"⟩ 0 (by decide)).2.2
     ⟨1, 10, Option.none⟩ (by decide) (by decide)⟩

lemma decayLoop_fst (db : DiscountDB) (ps pe : Int) :
    ∀ us : List UserDiscount, (decayLoop db ps pe us).1 = db := by
  intro us
  induction us with
  | nil => rfl
  | cons record rest ih =>
    by_cases h : has_orders_in_range db record.user_id ps pe
    · simpa [decayLoop, h] using ih
    · simp [decayLoop, h, update_discount_level]

/-- C8: the monthly decay is broken and never lowers any tier.  In general
the database after `monthly_discount_decay` is the database before it, for
every state and month window; on the failing input `decayDb` (user 1 at
BRONZE with zero PAID orders in the previous month) the claim expects the
tier to drop to NONE, but the run raises the `discount_level`
unconsumed-column error and the tier is still BRONZE afterwards. -/
theorem monthly_discount_decay_broken :
    (∀ (db : DiscountDB) (ps pe : Int), (monthly_discount_decay db ps pe).1 = db) ∧
    has_orders_in_range decayDb 1 0 30 = false ∧
    storedLevel decayDb 1 = UserDiscountLevel.bronze ∧
    (monthly_discount_decay decayDb 0 30).2 = some SqlError.unconsumedColumnNames ∧
    storedLevel (monthly_discount_decay decayDb 0 30).1 1 = UserDiscountLevel.bronze :=
  ⟨fun db ps pe => decayLoop_fst db ps pe (get_users_with_discount db),
   by decide, by decide, by decide, by decide⟩

lemma levelIndex_levelOfIndex (n : Nat) : levelIndex (levelOfIndex n) = min n 3 := by
  match n with
  | 0 => rfl
  | 1 => rfl
  | 2 => rfl
  | (m + 3) =>
    show 3 = min (m + 3) 3
    omega

lemma levelIndex_le_three (l : UserDiscountLevel) : levelIndex l ≤ 3 := by
  cases l <;> decide

lemma discount_find?_discountUpdate (db : DiscountDB) (x : Nat)
    (lvl : UserDiscountLevel) (lp : Option Int) (uid : Nat) :
    (discountUpdate db x lvl lp).discounts.find? (fun d => d.user_id == uid)
      = (db.discounts.find? (fun d => d.user_id == uid)).map
          (fun d =>
            if d.user_id == x then
              { d with
                current_level := lvl,
                last_purchase_date :=
                  match lp with
                  | some day => some day
                  | Option.none => d.last_purchase_date }
            else d) := by
  unfold discountUpdate
  refine find?_map_pred_eq _ _ (fun d => ?_) _
  by_cases h : d.user_id == x <;> simp [h]

lemma storedLevel_discountUpdate_self (db : DiscountDB) (uid : Nat)
    (lvl : UserDiscountLevel) (lp : Option Int)
    (h : (db.discounts.find? (fun d => d.user_id == uid)).isSome) :
    storedLevel (discountUpdate db uid lvl lp) uid = lvl := by
  obtain ⟨d, hd⟩ := Option.isSome_iff_exists.mp h
  have hid0 := List.find?_some hd
  have hid : (d.user_id == uid) = true := hid0
  have huid : d.user_id = uid := by simpa using hid
  unfold storedLevel
  rw [discount_find?_discountUpdate, hd]
  simp [huid]

lemma storedLevel_discountUpdate_other (db : DiscountDB) (x uid : Nat)
    (lvl : UserDiscountLevel) (lp : Option Int) (hne : uid ≠ x) :
    storedLevel (discountUpdate db x lvl lp) uid = storedLevel db uid := by
  unfold storedLevel
  rw [discount_find?_discountUpdate]
  cases hg : db.discounts.find? (fun d => d.user_id == uid) with
  | none => rfl
  | some d =>
    have hid0 := List.find?_some hg
    have hid : (d.user_id == uid) = true := hid0
    have huid : d.user_id = uid := by simpa using hid
    have hxid : ¬ d.user_id = x := by
      rw [huid]
      exact hne
    simp [hxid]

lemma discountGetOrCreate_spec (db : DiscountDB) (uid : Nat) :
    (discountGetOrCreate db uid).2.current_level = storedLevel db uid ∧
    (discountGetOrCreate db uid).1.orders = db.orders ∧
    ((discountGetOrCreate db uid).1.discounts.find?
        (fun d => d.user_id == uid)).isSome ∧
    (∀ x, storedLevel (discountGetOrCreate db uid).1 x = storedLevel db x) := by
  unfold discountGetOrCreate
  cases hg : db.discounts.find? (fun d => d.user_id == uid) with
  | some d =>
    refine ⟨?_, rfl, ?_, fun x => rfl⟩
    · unfold storedLevel
      rw [hg]
    · simp [hg]
  | none =>
    refine ⟨?_, rfl, ?_, ?_⟩
    · unfold storedLevel
      rw [hg]
    · simp only []
      rw [List.find?_append, hg]
      simp
    · intro x
      unfold storedLevel
      simp only []
      rw [List.find?_append]
      cases hx : db.discounts.find? (fun d => d.user_id == x) with
      | some d => rfl
      | none =>
        by_cases hxy : (uid == x) = true
        · have : uid = x := by simpa using hxy
          subst this
          simp [hg]
        · simp only [Option.none_or]
          rw [List.find?_singleton]
          simp only [hxy, cond_false]
          rfl

lemma on_order_paid_stores_max (db : DiscountDB) (user_id order_id : Nat)
    (today month_start : Int) (order : Order)
    (hord : db.orders.find? (fun o => o.id == order_id) = some order)
    (hpaid : order.status = OrderStatus.paid) :
    storedLevel (on_order_paid db user_id order_id today month_start) user_id
      = levelOfIndex (max (levelIndex (storedLevel db user_id))
          (levelIndex (computeLevel (get_monthly_total db user_id month_start)))) := by
  have hnn : ¬ order.status ≠ OrderStatus.paid := by simp [hpaid]
  obtain ⟨hcur, hords, hsome, _⟩ := discountGetOrCreate_spec db user_id
  simp only [on_order_paid, hord, if_neg hnn]
  rw [storedLevel_discountUpdate_self _ _ _ _ hsome, hcur]

lemma storedLevel_on_order_paid_mono (db : DiscountDB) (uid : Nat)
    (user_id order_id : Nat) (today month_start : Int) :
    levelIndex (storedLevel db uid)
      ≤ levelIndex (storedLevel
          (on_order_paid db user_id order_id today month_start) uid) := by
  cases hord : db.orders.find? (fun o => o.id == order_id) with
  | none =>
    simp only [on_order_paid, hord]
    exact le_rfl
  | some order =>
    by_cases hp : order.status ≠ OrderStatus.paid
    · simp only [on_order_paid, hord, if_pos hp]
      exact le_rfl
    · obtain ⟨hcur, _, hsome, hall⟩ := discountGetOrCreate_spec db user_id
      simp only [on_order_paid, hord, if_neg hp]
      by_cases huid : uid = user_id
      · subst huid
        rw [storedLevel_discountUpdate_self _ _ _ _ hsome, hcur,
          levelIndex_levelOfIndex]
        have h1 : levelIndex (storedLevel db uid) ≤ 3 := levelIndex_le_three _
        have h2 : levelIndex (computeLevel (get_monthly_total db uid month_start)) ≤ 3 :=
          levelIndex_le_three _
        omega
      · rw [storedLevel_discountUpdate_other _ _ _ _ _ huid, hall uid]

lemma storedLevel_runDiscountOp_mono (db : DiscountDB) (uid : Nat)
    (op : DiscountOp) :
    levelIndex (storedLevel db uid)
      ≤ levelIndex (storedLevel (runDiscountOp db op) uid) := by
  cases op with
  | orderPaid user_id order_id today month_start =>
    exact storedLevel_on_order_paid_mono db uid user_id order_id today month_start
  | decay ps pe =>
    have hfix : (monthly_discount_decay db ps pe).1 = db :=
      decayLoop_fst db ps pe (get_users_with_discount db)
    show levelIndex (storedLevel db uid)
        ≤ levelIndex (storedLevel (monthly_discount_decay db ps pe).1 uid)
    rw [hfix]

/-- C9: a user's stored discount tier never decreases under the operations
that can touch it.  `on_order_paid` (on an existing PAID order) stores
exactly the rank-maximum of the stored tier and the tier computed from the
current month's PAID spend, and any sequence of `on_order_paid` calls and
decay runs leaves every user's tier rank no lower than before (the decay
job, which the scheduler only fires at the first-of-month boundary, changes
no tier at all in this code, see `monthly_discount_decay`). -/
theorem discount_tier_monotone :
    (∀ (db : DiscountDB) (user_id order_id : Nat) (today month_start : Int)
        (order : Order),
      db.orders.find? (fun o => o.id == order_id) = some order →
      order.status = OrderStatus.paid →
      storedLevel (on_order_paid db user_id order_id today month_start) user_id
        = levelOfIndex (max (levelIndex (storedLevel db user_id))
            (levelIndex (computeLevel (get_monthly_total db user_id month_start))))) ∧
    (∀ (db : DiscountDB) (ops : List DiscountOp) (uid : Nat),
      levelIndex (storedLevel db uid)
        ≤ levelIndex (storedLevel (runDiscountOps db ops) uid)) := by
  constructor
  · intro db user_id order_id today month_start order hord hpaid
    exact on_order_paid_stores_max db user_id order_id today month_start order
      hord hpaid
  · intro db ops
    induction ops generalizing db with
    | nil => intro uid; exact le_rfl
    | cons op rest ih =>
      intro uid
      calc levelIndex (storedLevel db uid)
          ≤ levelIndex (storedLevel (runDiscountOp db op) uid) :=
            storedLevel_runDiscountOp_mono db uid op
        _ ≤ levelIndex (storedLevel (runDiscountOps (runDiscountOp db op) rest) uid) :=
            ih (runDiscountOp db op) uid

/-- Witness for C9 on `paidDb`: user 1 is stored at BRONZE and spent
32 000.00 this month, so `on_order_paid` stores
`max(BRONZE, SILVER) = SILVER`, and a later decay run does not lower the
rank. -/
theorem discount_tier_monotone_witness :
    storedLevel (on_order_paid paidDb 1 50 10 0) 1
        = levelOfIndex (max (levelIndex (storedLevel paidDb 1))
            (levelIndex (computeLevel (get_monthly_total paidDb 1 0)))) ∧
    levelIndex (storedLevel paidDb 1)
        ≤ levelIndex (storedLevel
            (runDiscountOps paidDb
              [DiscountOp.orderPaid 1 50 10 0, DiscountOp.decay 0 5]) 1) :=
  ⟨discount_tier_monotone.1 paidDb 1 50 10 0
      ⟨50, 1, OrderStatus.paid, 3200000, 10⟩ (by decide) rfl,
   discount_tier_monotone.2 paidDb
      [DiscountOp.orderPaid 1 50 10 0, DiscountOp.decay 0 5] 1⟩

/-- C10: `save_referral` never returns normally.  It always raises: whenever
the referrer has a referral node, or the invited user already has a referral
record, the raised error is the HTTP 417 "referral record already exists"
exception — in particular also on the success path, where the new record
linking the invited user to the referrer is created and the 417 is raised
anyway, so a caller cannot distinguish a successful save from a duplicate. -/
theorem save_referral_always_417 (db : DB)
    (referrer_user_id referral_user_id newNodeId : Nat) :
    (save_referral db referrer_user_id referral_user_id newNodeId).2
        ≠ Option.none ∧
    (∀ referrer, getReferralByUserId db referrer_user_id = some referrer →
      (save_referral db referrer_user_id referral_user_id newNodeId).2
          = some PyError.httpException417 ∧
      (getReferralByUserId db referral_user_id = Option.none →
        (save_referral db referrer_user_id referral_user_id newNodeId).1.referrals
          = db.referrals ++ [⟨newNodeId, referral_user_id, some referrer.id⟩])) ∧
    (∀ r, getReferralByUserId db referral_user_id = some r →
      (save_referral db referrer_user_id referral_user_id newNodeId).2
          = some PyError.httpException417 ∧
      (save_referral db referrer_user_id referral_user_id newNodeId).1 = db) := by
  refine ⟨?_, ?_, ?_⟩
  · cases hx : getReferralByUserId db referral_user_id with
    | some r => simp [save_referral, hx]
    | none =>
      cases hy : getReferralByUserId db referrer_user_id with
      | none => simp [save_referral, hx, hy]
      | some referrer => simp [save_referral, hx, hy]
  · intro referrer hy
    cases hx : getReferralByUserId db referral_user_id with
    | some r =>
      exact ⟨by simp [save_referral, hx], fun hcon => by simp [hx] at hcon⟩
    | none =>
      refine ⟨by simp [save_referral, hx, hy], fun _ => ?_⟩
      simp [save_referral, hx, hy]
  · intro r hx
    exact ⟨by simp [save_referral, hx], by simp [save_referral, hx]⟩

/-- Witness for C10 on `saveDb`: user 77 has no referral record and user 10
owns node 1, so the record is created (linking 77 under node 1) and the
call still raises HTTP 417. -/
theorem save_referral_always_417_witness :
    (save_referral saveDb 10 77 2).2 ≠ Option.none ∧
    (save_referral saveDb 10 77 2).2 = some PyError.httpException417 ∧
    (save_referral saveDb 10 77 2).1.referrals
        = saveDb.referrals ++ [⟨2, 77, some 1⟩] :=
  ⟨(save_referral_always_417 saveDb 10 77 2).1,
   ((save_referral_always_417 saveDb 10 77 2).2.1 ⟨1, 10, Option.none⟩
      (by decide)).1,
   ((save_referral_always_417 saveDb 10 77 2).2.1 ⟨1, 10, Option.none⟩
      (by decide)).2 (by decide)⟩

end BotanicBay
